import Mathlib

/-!
Verification of the snapshot edit-capture-and-preview pipeline of
`src/pages/index.tsx` (a Next.js preview-mode page).

The page has two halves:
* a server-side `getStaticProps` that, in preview mode, loads a snapshot
  blob from S3 and on failure returns error-page props;
* a client component `Home` with a `share` handler that captures editable
  regions, POSTs them to a save endpoint, and manages dialog state under a
  concurrency guard (`hasSaveRequest`).

Both are embedded below as pure functions over explicit state.
-/

namespace PreviewMode

/-- A field edit as produced at `index.tsx:99`: the pair of the identified
parent region id and the captured text (the source names the text field
`innerText`). -/
structure FieldEdit where
  id : String
  innerText : String
deriving DecidableEq, Repr

/-! ## Server side: `getStaticProps` (index.tsx lines 23-64) -/

/-- Outcome of the S3 `getObject` + `JSON.parse` step at `index.tsx:37-44`:
either the parsed contents, or a thrown error carrying an optional HTTP
status code (`none` models a thrown error without a `statusCode` field,
e.g. a network failure or a JSON parse error). -/
inductive S3Result where
  | ok (contents : List FieldEdit)
  | err (statusCode : Option Nat)
deriving DecidableEq, Repr

/-- The spec's store error taxonomy (§4.3/§7). -/
inductive StoreError where
  | notFound
  | accessDenied
  | storeUnavailable
deriving DecidableEq, Repr

/-- The HTTP status code with which the aws-sdk S3 client surfaces each
store error: a missing object is a 404 (`NoSuchKey`), a permission/ACL
failure is a 403 (`AccessDenied`), and a transient/network failure throws
without an HTTP status code. -/
def StoreError.statusCode : StoreError → Option Nat
  | .notFound => some 404
  | .accessDenied => some 403
  | .storeUnavailable => none

/-- Error message for the `statusCode === 403` branch (index.tsx:57). -/
def notExistMessage : String := "The requested preview edit does not exist!"

/-- Error message for every other failure (index.tsx:58). -/
def s3ErrorMessage : String :=
  "An error has occurred while connecting to S3. Please refresh the page to try again."

/-- The props object returned by `getStaticProps`, flattened into one
record (absent JS fields become `none` / `[]` / `false`). -/
structure PageProps where
  isPreview : Bool
  snapshotId : Option String
  contents : List FieldEdit
  hasError : Bool
  message : Option String
deriving DecidableEq, Repr

/-- `getStaticProps` (index.tsx:23-64): in preview mode it loads the
snapshot object `snapshotId ++ ".json"`; on success it returns preview
props with the parsed contents, on any thrown error it returns error-page
props whose message depends only on whether `e.statusCode === 403`; out of
preview mode it returns plain non-preview props. -/
def getStaticProps (preview : Bool) (snapshotId : String) (s3 : S3Result) :
    PageProps :=
  if preview then
    match s3 with
    | .ok contents =>
      { isPreview := true, snapshotId := some snapshotId, contents := contents
        hasError := false, message := none }
    | .err code =>
      { isPreview := false, snapshotId := none, contents := []
        hasError := true
        message := some (if code = some 403 then notExistMessage else s3ErrorMessage) }
  else
    { isPreview := false, snapshotId := none, contents := []
      hasError := false, message := none }

/-! ## Client side: the rendered page (index.tsx lines 124-188) -/

/-- Error-page heading at index.tsx:157. -/
def errorHeading1 : String := "Oops"

/-- Error-page heading at index.tsx:158. -/
def errorHeading2 : String := "Something unique to your preview went wrong."

/-- Observable structure of one render of `Home` (index.tsx:125-188):
whether the preview-mode indicator aside is emitted and what it links to,
whether the error-page variant replaces `Content`, the error headings and
message shown, and the `edits` overlay passed to `Content` (absent when
the error variant is rendered instead). -/
structure RenderedPage where
  exitPreviewLink : Option String
  errorHeadings : List String
  errorMessage : Option String
  contentEdits : Option (List FieldEdit)
deriving DecidableEq, Repr

/-- The render of `Home` as a function of its props (index.tsx:124-188):
`edits` is `props.contents` when previewing else `[]` (line 124); the
`aside` linking to `/api/exit` is rendered when `isPreview || hasError`
(lines 150-154); with `hasError` the error headings and `props.message`
are rendered instead of `Content` (lines 155-173). -/
def renderHome (props : PageProps) : RenderedPage :=
  let edits := if props.isPreview then props.contents else []
  { exitPreviewLink :=
      if props.isPreview || props.hasError then some "/api/exit" else none
    errorHeadings := if props.hasError then [errorHeading1, errorHeading2] else []
    errorMessage := if props.hasError then props.message else none
    contentEdits := if props.hasError then none else some edits }

/-! ## Edit capture (index.tsx lines 96-99) -/

/-- A DOM element as seen by the capture query: the `id` attribute of its
parent node (if the parent carries one), whether the element itself has
`contenteditable=true`, and its `innerText`. -/
structure DomElement where
  parentId : Option String
  contentEditable : Bool
  innerText : String
deriving DecidableEq, Repr

/-- The elements matched by `document.querySelectorAll` with selector
`[id] > [contenteditable=true]` (index.tsx:96): elements with
`contenteditable=true` whose direct parent carries an `id` attribute. -/
def editableRegions (doc : List DomElement) : List DomElement :=
  doc.filter (fun el => el.parentId.isSome && el.contentEditable)

/-- The capture step of `share` (index.tsx:96-99): map each matched
element to `\x7b id: parentNode.id, innerText \x7d`. -/
def capture (doc : List DomElement) : List FieldEdit :=
  (editableRegions doc).map (fun el =>
    { id := el.parentId.getD "", innerText := el.innerText })

/-! ## Client state and the `share` handler (index.tsx lines 70-122) -/

/-- The client-side state of `Home` relevant to saving: the snapshot id
shown by the share-link dialog (index.tsx:70), the error shown by the
error dialog (index.tsx:87, modelled by its message), the busy indicator
state (index.tsx:78) and the synchronous guard ref (index.tsx:77). -/
structure ClientState where
  currentSnapshotId : Option String
  currentError : Option String
  isSharingView : Bool
  hasSaveRequest : Bool
deriving DecidableEq, Repr

/-- `setSharing` (index.tsx:79-85): writes the guard ref synchronously and
updates the busy-indicator state. -/
def setSharing (sharing : Bool) (s : ClientState) : ClientState :=
  { s with hasSaveRequest := sharing, isSharingView := sharing }

/-- `share` up to the point the request is issued (index.tsx:92-106): if
the guard ref is set it returns at once, changing nothing and issuing no
request (`none`); otherwise it sets the guard, captures the editable
regions and issues the save request carrying them (`some payload`). -/
def share (doc : List DomElement) (s : ClientState) :
    ClientState × Option (List FieldEdit) :=
  if s.hasSaveRequest then (s, none)
  else (setSharing true s, some (capture doc))

/-- How the in-flight save request settles (index.tsx:107-112): an ok
response with a snapshot id, a non-ok response rejected with the response
body text, or a network failure rejected with the network error. -/
inductive SaveResponse where
  | ok (snapshotId : String)
  | httpError (bodyText : String)
  | networkError (message : String)
deriving DecidableEq, Repr

/-- The settle path of `share` (index.tsx:107-121): on success the `then`
sets the snapshot id (line 114); on either failure the `catch` sets the
error (line 117); `finally` clears the guard and busy state (line 120). -/
def settle (resp : SaveResponse) (s : ClientState) : ClientState :=
  setSharing false
    (match resp with
     | .ok sid => { s with currentSnapshotId := some sid }
     | .httpError body => { s with currentError := some body }
     | .networkError msg => { s with currentError := some msg })

/-- The share-link dialog is rendered exactly when a snapshot id is set
(index.tsx:143-148). -/
def shareLinkDialogShown (s : ClientState) : Bool :=
  s.currentSnapshotId.isSome

/-- The error dialog is rendered exactly when an error is set
(index.tsx:134-142). -/
def errorDialogShown (s : ClientState) : Bool :=
  s.currentError.isSome

/-! ## Snapshot store (modelled from the spec)

The save endpoint (`/api/save`) and the components `Malleable`,
`Snapshot`, `Edit` are not part of the sources under verification; the
store and merge are modelled from the spec (§4.3, §4.5, §6). -/

/-- Modelled from the spec (§6 persisted snapshot payload format): the
serialization of one string inside the payload, as a length-fixed run of
character codes. The save endpoint source is missing. -/
def encodeString (s : String) : List Nat :=
  s.length :: s.data.map Char.toNat

/-- Modelled from the spec (§6): serialization of one `\x7bid, text\x7d`
object of the payload. -/
def encodeEdit (e : FieldEdit) : List Nat :=
  encodeString e.id ++ encodeString e.innerText

/-- Modelled from the spec (§6): the persisted snapshot payload, a
serialized ordered list of `\x7bid, text\x7d` objects. -/
def encode (edits : List FieldEdit) : List Nat :=
  edits.length :: edits.flatMap encodeEdit

/-- Modelled from the spec (§6): deserialize one string, returning it and
the remaining bytes. -/
def decodeString : List Nat → Option (String × List Nat)
  | [] => none
  | n :: rest =>
    if n ≤ rest.length then
      some (String.mk ((rest.take n).map Char.ofNat), rest.drop n)
    else none

/-- Modelled from the spec (§6): deserialize exactly `count` edits,
consuming the whole remaining blob. -/
def decodeEdits : Nat → List Nat → Option (List FieldEdit)
  | 0, [] => some []
  | 0, _ :: _ => none
  | count + 1, bytes =>
    match decodeString bytes with
    | none => none
    | some (id, rest) =>
      match decodeString rest with
      | none => none
      | some (text, rest2) =>
        (decodeEdits count rest2).map (fun tl => ⟨id, text⟩ :: tl)

/-- Modelled from the spec (§6): deserialize a persisted snapshot
payload. -/
def decode : List Nat → Option (List FieldEdit)
  | [] => none
  | count :: rest => decodeEdits count rest

/-- Modelled from the spec (§6 blob backend contract): the opaque blob
store, an association of keys to byte blobs, plus the state feeding the
store's fresh-id generation. -/
structure Store where
  objects : List (String × List Nat)
  nextId : Nat
deriving DecidableEq, Repr

/-- Modelled from the spec (§6): `get(key)` on the blob backend. -/
def Store.getBlob (st : Store) (key : String) : Option (List Nat) :=
  (st.objects.find? (fun kv => kv.1 = key)).map (fun kv => kv.2)

/-- Modelled from the spec (§4.3 save): generate a fresh identifier,
serialize the edits and write the payload under the key derived from the
identifier (`<id>.json`, matching index.tsx:40), returning the identifier
and the updated store. -/
def Store.save (st : Store) (edits : List FieldEdit) : String × Store :=
  let id := "snap-" ++ toString st.nextId
  (id, { objects := (id ++ ".json", encode edits) :: st.objects
         nextId := st.nextId + 1 })

/-- Modelled from the spec (§4.3 load): read the blob at the derived key
(as index.tsx:40 does) and deserialize it into the edit list. -/
def Store.load (st : Store) (id : String) : Option (List FieldEdit) :=
  (st.getBlob (id ++ ".json")).bind decode

/-! ## Content merge (modelled from the spec) -/

/-- Modelled from the spec (§4.5): the overlay mapping from id to text,
one entry per `FieldEdit`, last entry winning on duplicates. The
`Malleable` component source is missing. -/
def overlayOf (edits : List FieldEdit) (id : String) : Option String :=
  (edits.reverse.find? (fun e => e.id = id)).map (fun e => e.innerText)

/-- Modelled from the spec (§4.5): the text an editable region renders:
the overlay's text when present, else the base text. -/
def renderRegion (edits : List FieldEdit) (id baseText : String) : String :=
  (overlayOf edits id).getD baseText

/-! ## Round-trip lemmas for the payload codec -/

/-- Deserializing a serialized string consumes exactly it and returns it. -/
lemma decodeString_encodeString (s : String) (rest : List Nat) :
    decodeString (encodeString s ++ rest) = some (s, rest) := by
  unfold encodeString decodeString
  have hlen : (s.data.map Char.toNat).length = s.length := by
    rw [List.length_map]
    rfl
  simp only [List.cons_append]
  rw [if_pos]
  · congr 1
    have htake : (s.data.map Char.toNat ++ rest).take s.length
        = s.data.map Char.toNat := by
      rw [← hlen, List.take_left]
    have hdrop : (s.data.map Char.toNat ++ rest).drop s.length = rest := by
      rw [← hlen, List.drop_left]
    rw [htake, hdrop, List.map_map]
    have : s.data.map (Char.ofNat ∘ Char.toNat) = s.data := by
      apply List.map_congr_left ?_ |>.trans (List.map_id _)
      intro c _
      exact Char.ofNat_toNat c
    rw [this]
  · rw [List.length_append, hlen]
    exact Nat.le_add_right _ _

/-- Deserializing `count` serialized edits recovers them. -/
lemma decodeEdits_encode (edits : List FieldEdit) :
    decodeEdits edits.length (edits.flatMap encodeEdit) = some edits := by
  induction edits with
  | nil => rfl
  | cons e tl ih =>
    simp only [List.length_cons, List.flatMap_cons, decodeEdits, encodeEdit,
      List.append_assoc, decodeString_encodeString]
    rw [ih]
    rfl

/-- The payload codec round-trips: `decode (encode edits) = some edits`. -/
lemma decode_encode (edits : List FieldEdit) :
    decode (encode edits) = some edits := by
  unfold encode decode
  exact decodeEdits_encode edits

/-! ## Claim theorems -/

/-- C1: for every preview render whose snapshot load fails (any thrown
error, whatever its status code), the page is the error-page variant —
the error headings and the failure message are shown and no content (so
no content merge) is rendered — and it is never the canonical
non-preview page. -/
theorem preview_load_failure_renders_error_page (sid : String)
    (code : Option Nat) :
    (renderHome (getStaticProps true sid (S3Result.err code))).errorHeadings
      = [errorHeading1, errorHeading2] ∧
    (renderHome (getStaticProps true sid (S3Result.err code))).errorMessage
      = some (if code = some 403 then notExistMessage else s3ErrorMessage) ∧
    (renderHome (getStaticProps true sid (S3Result.err code))).contentEdits
      = none ∧
    ∀ r : S3Result, renderHome (getStaticProps true sid (S3Result.err code))
      ≠ renderHome (getStaticProps false sid r) := by
  refine ⟨by simp [renderHome, getStaticProps], by simp [renderHome, getStaticProps],
    by simp [renderHome, getStaticProps], ?_⟩
  intro r h
  have := congrArg RenderedPage.contentEdits h
  simp [renderHome, getStaticProps] at this

/-- C2 counterexample: on a `NotFound` failure (the aws-sdk surfaces a
missing object as HTTP 404), the rendered message is the transient
"connecting to S3" message, not the "does not exist" message the claim
requires for `NotFound`. -/
theorem notfound_gets_transient_message :
    (getStaticProps true "snap-0"
        (S3Result.err (StoreError.statusCode StoreError.notFound))).message
      = some s3ErrorMessage ∧ s3ErrorMessage ≠ notExistMessage := by
  exact ⟨rfl, by decide⟩

/-- C2 amended: the error message branches on `statusCode === 403` only:
`AccessDenied` (403, which in this deployment also signals a missing
object) shows the "does not exist" message, while `NotFound` (404) and
`StoreUnavailable` (no status code) both show the transient retry
message. -/
theorem error_message_by_status (sid : String) :
    (getStaticProps true sid
        (S3Result.err (StoreError.statusCode StoreError.accessDenied))).message
      = some notExistMessage ∧
    (getStaticProps true sid
        (S3Result.err (StoreError.statusCode StoreError.notFound))).message
      = some s3ErrorMessage ∧
    (getStaticProps true sid
        (S3Result.err (StoreError.statusCode StoreError.storeUnavailable))).message
      = some s3ErrorMessage :=
  ⟨rfl, rfl, rfl⟩

/-- C3: invoking `share` while the guard ref reports a save in flight
changes nothing observable: the client state (hence every dialog) is
unchanged and no request is issued, so no snapshot can be created by this
invocation. -/
theorem share_while_in_flight_is_noop (doc : List DomElement)
    (s : ClientState) (h : s.hasSaveRequest = true) :
    share doc s = (s, none) := by
  simp [share, h]

/-- C3 witness. -/
theorem share_while_in_flight_is_noop_witness :
    share [] ⟨none, none, true, true⟩ = (⟨none, none, true, true⟩, none) :=
  share_while_in_flight_is_noop [] ⟨none, none, true, true⟩ rfl

/-- C4: `capture` returns exactly one `FieldEdit` per currently editable
region that is a child of an identified element: the counts agree, every
such region contributes the pair of its parent id and its text, and every
returned `FieldEdit` is the id/text pair of such a region. -/
theorem capture_one_edit_per_region (doc : List DomElement) :
    (capture doc).length = (editableRegions doc).length ∧
    (∀ el ∈ doc, ∀ rid : String, el.parentId = some rid →
      el.contentEditable = true →
      (⟨rid, el.innerText⟩ : FieldEdit) ∈ capture doc) ∧
    (∀ fe ∈ capture doc, ∃ el ∈ editableRegions doc,
      el.parentId = some fe.id ∧ el.innerText = fe.innerText) := by
  refine ⟨List.length_map _ _, ?_, ?_⟩
  · intro el hmem rid hpid hce
    have hreg : el ∈ editableRegions doc := by
      simp [editableRegions, List.mem_filter, hmem, hpid, hce]
    have : (⟨el.parentId.getD "", el.innerText⟩ : FieldEdit) ∈ capture doc :=
      List.mem_map_of_mem _ hreg
    simpa [hpid] using this
  · intro fe hfe
    obtain ⟨el, hel, heq⟩ := List.mem_map.mp hfe
    refine ⟨el, hel, ?_, ?_⟩
    · have hps : el.parentId.isSome := by
        have := (List.mem_filter.mp hel).2
        simp at this
        exact this.1
      obtain ⟨rid, hrid⟩ := Option.isSome_iff_exists.mp hps
      rw [hrid]
      rw [← heq]
      simp [hrid]
    · rw [← heq]

/-- C4 witness. -/
theorem capture_one_edit_per_region_witness :
    (⟨"title", "Hello"⟩ : FieldEdit) ∈
      capture [⟨some "title", true, "Hello"⟩, ⟨none, true, "x"⟩,
        ⟨some "a", false, "y"⟩] :=
  (capture_one_edit_per_region _).2.1 _ (List.mem_cons_self _ _) "title" rfl rfl

/-- C5: when no save is in flight, `share` sets the guard synchronously
as it issues the request, every settle path (success, http failure,
network failure) clears the guard, and a subsequent `share` invocation is
accepted (it issues a fresh request). -/
theorem save_guard_lifecycle (doc : List DomElement) (s : ClientState)
    (h : s.hasSaveRequest = false) :
    (share doc s).1.hasSaveRequest = true ∧
    (share doc s).2 = some (capture doc) ∧
    (∀ resp : SaveResponse,
      (settle resp (share doc s).1).hasSaveRequest = false) ∧
    (∀ resp : SaveResponse, ∀ doc2 : List DomElement,
      (share doc2 (settle resp (share doc s).1)).2 = some (capture doc2)) := by
  refine ⟨by simp [share, h, setSharing], by simp [share, h], ?_, ?_⟩
  · intro resp
    rfl
  · intro resp doc2
    simp [share, settle, setSharing]

/-- C5 witness. -/
theorem save_guard_lifecycle_witness :
    (settle (SaveResponse.ok "abc123")
        (share [] ⟨none, none, false, false⟩).1).hasSaveRequest = false :=
  (save_guard_lifecycle [] ⟨none, none, false, false⟩ rfl).2.2.1
    (SaveResponse.ok "abc123")

/-- C6: the persisted snapshot payload round-trips through save then
load: loading the id returned by a save yields exactly the saved edit
list, hence an identical id-to-text overlay mapping. -/
theorem save_load_round_trip (st : Store) (edits : List FieldEdit) :
    (st.save edits).2.load (st.save edits).1 = some edits ∧
    ∀ rid : String,
      overlayOf (((st.save edits).2.load (st.save edits).1).getD []) rid
        = overlayOf edits rid := by
  have hload : (st.save edits).2.load (st.save edits).1 = some edits := by
    simp only [Store.save, Store.load, Store.getBlob]
    rw [List.find?_cons_of_pos _ (by simp)]
    simp [decode_encode]
  refine ⟨hload, fun rid => ?_⟩
  rw [hload, Option.getD_some]

/-- C7: the preview-mode indicator linking to the exit-preview action is
rendered on every preview render and on every error-page render, and is
absent from every normal (non-preview, non-error) render. -/
theorem preview_indicator_presence (props : PageProps) :
    (props.isPreview = true →
      (renderHome props).exitPreviewLink = some "/api/exit") ∧
    (props.hasError = true →
      (renderHome props).exitPreviewLink = some "/api/exit") ∧
    (props.isPreview = false → props.hasError = false →
      (renderHome props).exitPreviewLink = none) := by
  refine ⟨fun h => by simp [renderHome, h], fun h => by simp [renderHome, h],
    fun h1 h2 => by simp [renderHome, h1, h2]⟩

/-- C7 witness. -/
theorem preview_indicator_presence_witness :
    (renderHome (getStaticProps true "abc123" (S3Result.ok []))).exitPreviewLink
      = some "/api/exit" :=
  (preview_indicator_presence _).1 rfl

/-- C8: every render with `isPreview = false` passes an empty edits
overlay: whenever `Content` is rendered its overlay is `[]` (and on the
canonical non-error path it is rendered with exactly `[]`), and rendering
any region under the empty overlay yields the base text unchanged. -/
theorem nonpreview_renders_base (props : PageProps)
    (h : props.isPreview = false) :
    (∀ e : List FieldEdit, (renderHome props).contentEdits = some e → e = []) ∧
    (props.hasError = false → (renderHome props).contentEdits = some []) ∧
    (∀ rid base : String, renderRegion [] rid base = base) := by
  refine ⟨?_, ?_, ?_⟩
  · intro e he
    by_cases herr : props.hasError <;> simp [renderHome, h, herr] at he
    exact he
  · intro herr
    simp [renderHome, h, herr]
  · intro rid base
    rfl

/-- C8 witness. -/
theorem nonpreview_renders_base_witness :
    (renderHome (getStaticProps false "s" (S3Result.ok []))).contentEdits
      = some [] :=
  (nonpreview_renders_base _ rfl).2.1 rfl

/-- C9: each settle path produces exactly one dialog outcome: on success
only the snapshot id is set (the error is untouched); on a non-ok
response the error is set to the response body text and on a network
failure to the network error, and in both failure cases the snapshot id —
and with it the share-link dialog — is unchanged. -/
theorem settle_dialog_outcomes (s : ClientState) :
    (∀ sid : String,
      (settle (SaveResponse.ok sid) s).currentSnapshotId = some sid ∧
      (settle (SaveResponse.ok sid) s).currentError = s.currentError) ∧
    (∀ body : String,
      (settle (SaveResponse.httpError body) s).currentError = some body ∧
      (settle (SaveResponse.httpError body) s).currentSnapshotId
        = s.currentSnapshotId ∧
      shareLinkDialogShown (settle (SaveResponse.httpError body) s)
        = shareLinkDialogShown s) ∧
    (∀ msg : String,
      (settle (SaveResponse.networkError msg) s).currentError = some msg ∧
      (settle (SaveResponse.networkError msg) s).currentSnapshotId
        = s.currentSnapshotId ∧
      shareLinkDialogShown (settle (SaveResponse.networkError msg) s)
        = shareLinkDialogShown s) :=
  ⟨fun _ => ⟨rfl, rfl⟩, fun _ => ⟨rfl, rfl, rfl⟩, fun _ => ⟨rfl, rfl, rfl⟩⟩

/-- C10: every props object `getStaticProps` returns satisfies
`hasError = true → isPreview = false`; in every error or non-preview
state the edits overlay computed at index.tsx:124 is empty; and on the
error page (where `isPreview` is false) the indicator is driven by
`hasError` alone. -/
theorem error_props_invariant (preview : Bool) (sid : String)
    (res : S3Result) :
    ((getStaticProps preview sid res).hasError = true →
      (getStaticProps preview sid res).isPreview = false) ∧
    (((getStaticProps preview sid res).hasError = true ∨
        (getStaticProps preview sid res).isPreview = false) →
      (if (getStaticProps preview sid res).isPreview
        then (getStaticProps preview sid res).contents else []) = []) ∧
    ((getStaticProps preview sid res).isPreview = false →
      (renderHome (getStaticProps preview sid res)).exitPreviewLink
        = (if (getStaticProps preview sid res).hasError
            then some "/api/exit" else none)) := by
  cases preview <;> cases res <;>
    simp [getStaticProps, renderHome]

/-- C10 witness. -/
theorem error_props_invariant_witness :
    (getStaticProps true "s" (S3Result.err none)).isPreview = false :=
  (error_props_invariant true "s" (S3Result.err none)).1 rfl

end PreviewMode
